import Mathlib

/-!
Shallow embedding of the esia-potato core: the CryptoPro container reader
(`cryptopro/extract.go`) and the CMS SignedData builder (`cms/cms.go`).

Bytes are modelled as `Nat` (all literals are below 256), byte strings as
`List Nat`.  External cryptographic primitives (the Streebog-256 hash, the
GOST 28147 block cipher, scalar-point multiplication) come from the gogost
dependency, which is outside this repository; they are taken as function
parameters, constrained only by their documented output shapes.
-/

set_option maxRecDepth 8192

namespace EsiaPotato

/-! ## Byte utilities (utils/bytes.go) -/

/-- Embedding of `utils.ReverseBytes`: a fresh buffer with `result[i] =
b[len-1-i]`, which is exactly list reversal. -/
def ReverseBytes (b : List Nat) : List Nat := b.reverse

/-! ## Byte-pattern search (Go `bytes.Contains` / `bytes.Index`) -/

/-- Embedding of Go `bytes.Contains haystack needle`: does `needle` occur as a
contiguous substring of `haystack`? -/
def bytesContains (haystack needle : List Nat) : Bool :=
  match haystack with
  | [] => needle.isPrefixOf []
  | h :: t => needle.isPrefixOf (h :: t) || bytesContains t needle

/-- Embedding of Go `bytes.Index haystack needle`: index of the first
occurrence of `needle` in `haystack`, `none` when absent (Go returns `-1`). -/
def bytesIndex (haystack needle : List Nat) : Option Nat :=
  match haystack with
  | [] => if needle.isPrefixOf [] then some 0 else none
  | h :: t =>
      if needle.isPrefixOf (h :: t) then some 0 else (bytesIndex t needle).map (· + 1)

/-! ## cryptopro/extract.go: tables and scanning -/

/-- Error kinds of the extractor, mirroring the sentinel errors declared at
the top of `cryptopro/extract.go` (plus one kind standing for the wrapped
failures of the external gogost key constructor). -/
inductive ExtractErr where
  | curveOIDNotFound
  | curveOIDUnknown
  | fingerprintMismatch
  | modInverseFailed
  | keyCreationFailed
  deriving DecidableEq, Repr

/-- The `oidPatterns` map of `extract.go`, listed in source order.  A Go map
carries no order; iteration visits the entries in an unspecified (runtime
randomised) order, so functions that range over the map are parameterised
below by a permutation of this list. -/
def oidPatternsTable : List (String × List Nat) :=
  [ ("1.2.643.2.2.35.1", [0x06, 0x07, 0x2a, 0x85, 0x03, 0x02, 0x02, 0x23, 0x01]),
    ("1.2.643.2.2.35.2", [0x06, 0x07, 0x2a, 0x85, 0x03, 0x02, 0x02, 0x23, 0x02]),
    ("1.2.643.2.2.35.3", [0x06, 0x07, 0x2a, 0x85, 0x03, 0x02, 0x02, 0x23, 0x03]),
    ("1.2.643.2.2.36.0", [0x06, 0x07, 0x2a, 0x85, 0x03, 0x02, 0x02, 0x24, 0x00]),
    ("1.2.643.2.2.36.1", [0x06, 0x07, 0x2a, 0x85, 0x03, 0x02, 0x02, 0x24, 0x01]),
    ("1.2.643.7.1.2.1.1.1", [0x06, 0x08, 0x2a, 0x85, 0x03, 0x07, 0x01, 0x02, 0x01, 0x01, 0x01]),
    ("1.2.643.7.1.2.1.1.2", [0x06, 0x08, 0x2a, 0x85, 0x03, 0x07, 0x01, 0x02, 0x01, 0x01, 0x02]) ]

/-- Keys of the `CurveOID` map of `extract.go`: the OID strings for which a
gogost curve descriptor is registered.  Note the map has six entries while
`oidPatterns` has seven: `1.2.643.7.1.2.1.1.2` has a pattern but no
descriptor. -/
def curveOIDKeys : List String :=
  [ "1.2.643.7.1.2.1.1.1",
    "1.2.643.2.2.35.1",
    "1.2.643.2.2.35.2",
    "1.2.643.2.2.35.3",
    "1.2.643.2.2.36.0",
    "1.2.643.2.2.36.1" ]

/-- Presence test of the `CurveOID` map lookup `curve, ok := CurveOID[oid]`. -/
def curveRegistered (oid : String) : Bool := curveOIDKeys.contains oid

/-- Embedding of `findCurveOID`, parameterised by the order in which the Go
runtime iterates the `oidPatterns` map: the first entry of `order` whose
pattern occurs in `header` wins; otherwise the empty string is returned. -/
def findCurveOIDWith (order : List (String × List Nat)) (header : List Nat) : String :=
  match order with
  | [] => ""
  | p :: rest => if bytesContains header p.2 then p.1 else findCurveOIDWith rest header

/-- Embedding of the curve-resolution stage of `OpenContainer` (after the
`header.key` file read): scan for an OID, fail with `curveOIDNotFound` when
no pattern occurs, with `curveOIDUnknown` when the matched OID has no
registered descriptor, and return the OID otherwise. -/
def openContainerOID (order : List (String × List Nat)) (header : List Nat) :
    Except ExtractErr String :=
  let oid := findCurveOIDWith order header
  if oid = "" then .error .curveOIDNotFound
  else if curveRegistered oid then .ok oid
  else .error .curveOIDUnknown

/-- Embedding of `findFingerprint`: locate the first occurrence of the two
bytes `tag, 0x08`; when at least eight bytes follow them, return those eight
bytes, else return `none` (Go returns `nil`). -/
def findFingerprint (header : List Nat) (tag : Nat) : Option (List Nat) :=
  match bytesIndex header [tag, 0x08] with
  | some idx =>
      if idx + 10 ≤ header.length then some ((header.drop (idx + 2)).take 8) else none
  | none => none

/-! ## cryptopro/extract.go: the key-derivation function `cpkdf`

The Streebog-256 hash comes from gogost and is modelled as a function
parameter `hash`; the claims constrain it only by its 32-byte output length.
Sequential `h.Write` calls followed by `h.Sum(nil)` hash the concatenation
of everything written. -/

/-- Password expansion of `cpkdf`: a zero buffer of length `4n` with password
byte `i` at offset `4i`; the empty list for an empty password. -/
def expandPassword (password : List Nat) : List Nat :=
  if password.length > 0 then
    (List.range (password.length * 4)).map fun j =>
      if j % 4 = 0 then password.getD (j / 4) 0 else 0
  else []

/-- Right-pad a buffer with zero bytes to 64 bytes (`bs = h.Size() * 2`),
as `cpkdf` does after every hash whose output is shorter than 64. -/
def padTo64 (c : List Nat) : List Nat :=
  if c.length < 64 then c ++ List.replicate (64 - c.length) 0 else c

/-- The fixed magic constant of `cpkdf` (32 ASCII bytes). -/
def magicC : List Nat := "DENEFH028.760246785.IUEFHWUIO.EF".toList.map Char.toNat

/-- XOR every byte of a buffer with a fixed pad byte (`m0`/`m1` derivation). -/
def xorPad (x : Nat) (c : List Nat) : List Nat := c.map fun b => b ^^^ x

/-- One iteration of the stage-2 loop of `cpkdf`. -/
def cpkdfRound (hash : List Nat → List Nat) (hashResult c : List Nat) : List Nat :=
  padTo64 (hash (xorPad 0x36 c ++ hashResult ++ xorPad 0x5C c ++ hashResult))

/-- The stage-2 loop of `cpkdf`, run for a given number of iterations. -/
def cpkdfIter (hash : List Nat → List Nat) (hashResult : List Nat) :
    Nat → List Nat → List Nat
  | 0, c => c
  | n + 1, c => cpkdfIter hash hashResult n (cpkdfRound hash hashResult c)

/-- Embedding of `cpkdf` from `cryptopro/extract.go`, with the Streebog-256
hash as a parameter.  The Go error plumbing never fires (`hash.Write` on the
in-memory Streebog state cannot fail), so the embedding is total. -/
def cpkdf (hash : List Nat → List Nat) (password salt : List Nat) : List Nat :=
  let pin := expandPassword password
  let hashResult := hash (if pin.length > 0 then salt ++ pin else salt)
  let c0 := padTo64 magicC
  let iterations := if password.length > 0 then 2000 else 2
  let c1 := cpkdfIter hash hashResult iterations c0
  let c2 := hash ((xorPad 0x36 c1).take 32 ++ salt ++ (xorPad 0x5C c1).take 32 ++
    (if pin.length > 0 then pin else []))
  hash ((padTo64 c2).take 32)

/-! ## cryptopro/extract.go: ECB decryption and unmasking -/

/-- Embedding of the gogost ECB-decrypter loop driven by
`gost28147ECBDecrypt`: the block cipher decrypts consecutive 8-byte blocks.
A trailing fragment of fewer than 8 bytes makes the Go code slice out of
range and panic; the panic is modelled as `none`. -/
def ecbDecrypt (dec : List Nat → List Nat) : List Nat → Option (List Nat)
  | [] => some []
  | b0 :: b1 :: b2 :: b3 :: b4 :: b5 :: b6 :: b7 :: rest =>
      (ecbDecrypt dec rest).map (dec [b0, b1, b2, b3, b4, b5, b6, b7] ++ ·)
  | _ => none

/-- Embedding of `gost28147ECBDecrypt`, with the keyed block-decryption
function of the external gost28147 cipher as a parameter. -/
def gost28147ECBDecrypt (blockDec : List Nat → List Nat → List Nat)
    (key data : List Nat) : Option (List Nat) :=
  ecbDecrypt (blockDec key) data

/-- Big-endian bytes to `Nat`, as `big.Int.SetBytes` does. -/
def natOfBytesBE (l : List Nat) : Nat := l.foldl (fun a b => a * 256 + b) 0

/-- Minimal big-endian bytes of a `Nat` (empty for zero), as `big.Int.Bytes`
produces; the first argument is recursion fuel, always instantiated with the
number itself. -/
def natToBytesBEAux : Nat → Nat → List Nat
  | 0, _ => []
  | fuel + 1, n => if n = 0 then [] else natToBytesBEAux fuel (n / 256) ++ [n % 256]

/-- Minimal big-endian byte string of a `Nat` (empty for zero). -/
def natToBytesBE (n : Nat) : List Nat := natToBytesBEAux n n

/-- Model of `big.Int.ModInverse m q`: the least inverse of `m` modulo `q`
when one exists, `none` otherwise (Go returns `nil`). -/
def modInverse (m q : Nat) : Option Nat :=
  (List.range q).find? fun k => (m * k) % q = 1

/-- Embedding of `unmaskKey`: reverse the mask, interpret both buffers as
big-endian integers, multiply by the modular inverse of the mask modulo the
curve order, left-pad to 32 bytes and reverse.  `none` models
`ErrModInverseFailed`. -/
def unmaskKey (encrypted mask : List Nat) (q : Nat) : Option (List Nat) :=
  let maskCopy := ReverseBytes mask
  let pk := natOfBytesBE encrypted
  let m := natOfBytesBE maskCopy
  match modInverse m q with
  | none => none
  | some mInv =>
      let raw := (pk * mInv) % q
      let result := natToBytesBE raw
      let padded :=
        if result.length < 32 then List.replicate (32 - result.length) 0 ++ result
        else result
      some padded.reverse

/-! ## cryptopro/extract.go: the `ExtractKey` pipeline

The file reads and the two ASN.1 decodes at the top of `ExtractKey` supply
`mask`, `salt` and `value`; they are inputs here.  The external primitives
are collected in `ExtParams`.  The outer `Option` is abnormal termination
(a gogost panic on a ragged final block); the inner `Except` is the
function's own error return. -/

/-- External primitives used by `ExtractKey`: the Streebog-256 hash, the
keyed GOST 28147 block decryption, the gogost private-to-public key
derivation (`NewPrivateKey` then `PublicKey().Raw()`, which can fail), and
the subgroup order of the resolved curve. -/
structure ExtParams where
  hash : List Nat → List Nat
  blockDecrypt : List Nat → List Nat → List Nat
  pubFromPriv : List Nat → Option (List Nat)
  curveQ : Nat

/-- Embedding of the `KeyData` bundle returned by `ExtractKey`. -/
structure KeyData where
  privateKey : List Nat
  publicKey : List Nat
  curveOID : String
  fingerprint : List Nat
  deriving DecidableEq, Repr

/-- Embedding of `Container.ExtractKey` after the file reads and ASN.1
parses: derive the wrap key with `cpkdf`, ECB-decrypt `value`, reverse,
unmask, derive the public point, and gate the result on the fingerprint
found in `header.key` (skipping the check when no fingerprint is found). -/
def extractKey (P : ExtParams) (oid : String)
    (header mask salt value password : List Nat) :
    Option (Except ExtractErr KeyData) :=
  let derivedKey := cpkdf P.hash password salt
  match gost28147ECBDecrypt P.blockDecrypt derivedKey value with
  | none => none
  | some decrypted =>
      some (match unmaskKey decrypted.reverse mask P.curveQ with
        | none => .error .modInverseFailed
        | some privateKey =>
            match P.pubFromPriv privateKey with
            | none => .error .keyCreationFailed
            | some publicKey =>
                let actualFP := publicKey.take 8
                match findFingerprint header 0x8a with
                | some expectedFP =>
                    if actualFP = expectedFP then
                      .ok ⟨privateKey, publicKey, oid, actualFP⟩
                    else .error .fingerprintMismatch
                | none => .ok ⟨privateKey, publicKey, oid, actualFP⟩)

/-! ## cms/cms.go: DER emission (the subset of `encoding/asn1` the signer
uses)

`asn1.Marshal` emits definite-length DER: an identifier octet, a length
(short form below 128, else `0x80 + k` followed by `k` minimal big-endian
bytes), then the content.  A `RawValue` with empty `FullBytes` is emitted
from its own class/tag/compound bits and `Bytes` content, ignoring any
field annotations. -/

/-- DER length octets of a content length. -/
def derLenBytes (n : Nat) : List Nat :=
  if n < 128 then [n] else (0x80 + (natToBytesBE n).length) :: natToBytesBE n

/-- A DER node: identifier octet, length octets, content. -/
def derNode (tag : Nat) (content : List Nat) : List Nat :=
  tag :: (derLenBytes content.length ++ content)

/-- Encoding of an `asn1.RawValue` with the given class, tag number,
constructed bit and content bytes. -/
def rawValueNode (cls tag : Nat) (compound : Bool) (bytes : List Nat) : List Nat :=
  (cls * 64 + (if compound then 32 else 0) + tag) :: (derLenBytes bytes.length ++ bytes)

/-- Base-128 digits of a `Nat` (fuelled recursion; fuel is the number). -/
def base128DigitsAux : Nat → Nat → List Nat
  | 0, n => [n]
  | fuel + 1, n => if n < 128 then [n] else base128DigitsAux fuel (n / 128) ++ [n % 128]

/-- Base-128 digits of a `Nat`, most significant first. -/
def base128Digits (n : Nat) : List Nat := base128DigitsAux n n

/-- Set the continuation bit on every base-128 digit but the last. -/
def markHigh : List Nat → List Nat
  | [] => []
  | [x] => [x]
  | x :: y :: xs => (x + 128) :: markHigh (y :: xs)

/-- Base-128 encoding of one OID component with continuation bits. -/
def base128 (n : Nat) : List Nat := markHigh (base128Digits n)

/-- Content octets of a DER `OBJECT IDENTIFIER`: the first two components
packed as `40 * c0 + c1`, the rest base-128 encoded. -/
def encodeOIDContent (cs : List Nat) : List Nat :=
  match cs with
  | c0 :: c1 :: rest => base128 (40 * c0 + c1) ++ (rest.map base128).flatten
  | _ => []

/-- Full DER node of an `OBJECT IDENTIFIER`. -/
def encodeOID (cs : List Nat) : List Nat := derNode 0x06 (encodeOIDContent cs)

/-- OID constants declared at the top of `cms/cms.go`. -/
def oidData : List Nat := [1, 2, 840, 113549, 1, 7, 1]

/-- PKCS#7 id-signedData. -/
def oidSignedData : List Nat := [1, 2, 840, 113549, 1, 7, 2]

/-- PKCS#9 contentType attribute OID. -/
def oidAttrContentType : List Nat := [1, 2, 840, 113549, 1, 9, 3]

/-- PKCS#9 signingTime attribute OID. -/
def oidAttrSigningTime : List Nat := [1, 2, 840, 113549, 1, 9, 5]

/-- PKCS#9 messageDigest attribute OID. -/
def oidAttrMessageDigest : List Nat := [1, 2, 840, 113549, 1, 9, 4]

/-- GOST R 34.11-2012 256-bit hash OID. -/
def oidGostR341112256 : List Nat := [1, 2, 643, 7, 1, 1, 2, 2]

/-- GOST R 34.10-2012 256-bit signature OID. -/
def oidGostR341012256 : List Nat := [1, 2, 643, 7, 1, 1, 1, 1]

/-! ## cms/cms.go: signed attributes and the CMS envelope -/

/-- The marshalled `contentType` attribute: SEQUENCE of its OID and a SET
holding the single marshalled `id-data` OID. -/
def contentTypeAttr : List Nat :=
  derNode 0x30 (encodeOID oidAttrContentType ++
    rawValueNode 0 17 true (encodeOID oidData))

/-- The marshalled `signingTime` attribute; `timeDer` is the DER node that
`asn1.Marshal` produces for the current UTC instant (a 15-byte UTCTime node,
or a 17-byte GeneralizedTime node for years outside 1950-2049). -/
def signingTimeAttr (timeDer : List Nat) : List Nat :=
  derNode 0x30 (encodeOID oidAttrSigningTime ++ rawValueNode 0 17 true timeDer)

/-- The marshalled `messageDigest` attribute over the content digest. -/
def messageDigestAttr (digest : List Nat) : List Nat :=
  derNode 0x30 (encodeOID oidAttrMessageDigest ++
    rawValueNode 0 17 true (derNode 0x04 digest))

/-- The `SEQUENCE OF Attribute` encoding of the three attributes, in the
order the source lists them: contentType, signingTime, messageDigest. -/
def attrsSeqBytes (timeDer digest : List Nat) : List Nat :=
  derNode 0x30 (contentTypeAttr ++ signingTimeAttr timeDer ++ messageDigestAttr digest)

/-- Overwrite the first byte of a buffer (on a copy), as
`attrsForSigning[0] = 0x31` does. -/
def setFirstByte (b : Nat) : List Nat → List Nat
  | [] => []
  | _ :: t => b :: t

/-- Embedding of `createSignedAttributes`: returns the content carried by the
`[0] IMPLICIT` raw value (`attrsBytes[2:]`) and the re-tagged
`attrsForSigning` buffer. -/
def createSignedAttributes (timeDer digest : List Nat) : List Nat × List Nat :=
  let attrsBytes := attrsSeqBytes timeDer digest
  (attrsBytes.drop 2, setFirstByte 0x31 attrsBytes)

/-- A marshalled `pkix.AlgorithmIdentifier` with NULL parameters. -/
def algIdNode (oid : List Nat) : List Nat :=
  derNode 0x30 (encodeOID oid ++ [0x05, 0x00])

/-- Content of the marshalled `SignerInfo` built in step 5 of `Sign`.
`issuerNode` is
the verbatim issuer encoding captured from the certificate (`FullBytes` of
the parsed `RawValue`), `serialContent` the content octets of the serial
INTEGER, `signedAttrsBytes` the `[0] IMPLICIT` content from
`createSignedAttributes`, and `sig` the raw 64-byte signature. -/
def signerInfoContent (issuerNode serialContent signedAttrsBytes sig : List Nat) : List Nat :=
  derNode 0x02 [1] ++
  derNode 0x30 (issuerNode ++ derNode 0x02 serialContent) ++
  algIdNode oidGostR341112256 ++
  rawValueNode 2 0 true signedAttrsBytes ++
  algIdNode oidGostR341012256 ++
  derNode 0x04 sig

/-- The marshalled `SignerInfo` node itself. -/
def signerInfoNode (issuerNode serialContent signedAttrsBytes sig : List Nat) : List Nat :=
  derNode 0x30 (signerInfoContent issuerNode serialContent signedAttrsBytes sig)

/-- Content of the marshalled `SignedData` of step 6: version 1, the
digest-algorithm
SET with its single entry, the detached `EncapsulatedContentInfo` (no
eContent), the `[0] IMPLICIT` certificates raw value carrying the original
certificate DER, and the SET with the single `SignerInfo`. -/
def signedDataContent (certDER signerInfo : List Nat) : List Nat :=
  derNode 0x02 [1] ++
  rawValueNode 0 17 true (algIdNode oidGostR341112256) ++
  derNode 0x30 (encodeOID oidData) ++
  rawValueNode 2 0 true certDER ++
  rawValueNode 0 17 true signerInfo

/-- The marshalled `SignedData` node itself. -/
def signedDataNode (certDER signerInfo : List Nat) : List Nat :=
  derNode 0x30 (signedDataContent certDER signerInfo)

/-- Embedding of `Signer.Sign` as a function of the values that vary at run
time: the certificate DER held by the signer, the captured issuer bytes and
serial content, the marshalled signing time, the 32-byte content digest, and
the raw signature produced by the external scalar signer. -/
def signModel (certDER issuerNode serialContent timeDer digest sig : List Nat) : List Nat :=
  let signedAttrsBytes := (createSignedAttributes timeDer digest).1
  let si := signerInfoNode issuerNode serialContent signedAttrsBytes sig
  let sd := signedDataNode certDER si
  derNode 0x30 (encodeOID oidSignedData ++ rawValueNode 2 0 true sd)

/-! ## A small DER reader used to state parse-ability of emitted bytes -/

/-- Read DER length octets: `some (content length, rest)` or `none`. -/
def readLen : List Nat → Option (Nat × List Nat)
  | [] => none
  | b :: rest =>
      if b < 128 then some (b, rest)
      else
        let k := b - 128
        if k = 0 then none
        else if k ≤ rest.length then some (natOfBytesBE (rest.take k), rest.drop k)
        else none

/-- Split a byte string into its consecutive top-level DER elements, each as
a pair of identifier octet and content; `none` on malformed input.  The
first argument is recursion fuel. -/
def derParseElemsF : Nat → List Nat → Option (List (Nat × List Nat))
  | _, [] => some []
  | 0, _ :: _ => none
  | fuel + 1, t :: rest =>
      match readLen rest with
      | none => none
      | some (len, r2) =>
          if len ≤ r2.length then
            (derParseElemsF fuel (r2.drop len)).map ((t, r2.take len) :: ·)
          else none

/-- Top-level DER elements of a byte string. -/
def derParse (bs : List Nat) : Option (List (Nat × List Nat)) :=
  derParseElemsF bs.length bs

/-! ## cms/cms.go: `NewSigner` and its error values

`pkg/errors.Wrap(err, msg)` attaches a message to a cause; `errors.Is`
matches by walking the cause chain and comparing error identity.  The
declared sentinel values and the distinct error values created by the
`encoding/asn1` parser are separate constructors, so constructor equality
over-approximates Go pointer identity: two errors equal under Go
`errors.Is` are equal here. -/

/-- Error values appearing in `cms/cms.go`: the four declared sentinels, the
errors produced by the `encoding/asn1` parser, and `errors.Wrap` chains. -/
inductive CmsError where
  | errCertificateParse
  | errSignedAttributes
  | errSign
  | errMarshalSignedData
  | asn1Error (msg : String)
  | wrapped (msg : String) (cause : CmsError)
  deriving DecidableEq, Repr, BEq

/-- Model of Go `errors.Is err target`: identity at any unwrap depth. -/
def errorIs : CmsError → CmsError → Bool
  | e, target =>
      e == target ||
        match e with
        | .wrapped _ c => errorIs c target
        | _ => false

/-- Read one DER node: `some (identifier octet, content, rest)`. -/
def readNode (bs : List Nat) : Option (Nat × List Nat × List Nat) :=
  match bs with
  | [] => none
  | t :: rest =>
      match readLen rest with
      | none => none
      | some (len, r2) =>
          if len ≤ r2.length then some (t, r2.take len, r2.drop len) else none

/-- Partial decode of the `TBSCertificate` fields the signer needs: an
optional explicit `[0]` version holding an INTEGER, the serial INTEGER, the
signature `AlgorithmIdentifier` SEQUENCE, and the issuer as one raw
element. -/
def parseTBS (tbs : List Nat) : Except String Unit :=
  match readNode tbs with
  | none => .error "asn1: syntax error: sequence truncated"
  | some (t1, c1, r1) =>
      let afterVersion : Except String (List Nat) :=
        if t1 = 0xA0 then
          match readNode c1 with
          | some (0x02, _, _) => .ok r1
          | _ => .error "asn1: structure error: tags do not match"
        else .ok tbs
      match afterVersion with
      | .error m => .error m
      | .ok rest1 =>
          match readNode rest1 with
          | some (0x02, _, r2) =>
              (match readNode r2 with
                | some (0x30, _, r3) =>
                    (match readNode r3 with
                      | some _ => .ok ()
                      | none => .error "asn1: syntax error: sequence truncated")
                | _ => .error "asn1: structure error: tags do not match")
          | _ => .error "asn1: structure error: tags do not match"

/-- Partial decode of the certificate performed by `asn1.Unmarshal` in
`NewSigner`: an outer SEQUENCE holding the `TBSCertificate` SEQUENCE whose
prefix fields must decode; trailing data after the outer SEQUENCE is
returned, not rejected. -/
def parseCertificate (certDER : List Nat) : Except String Unit :=
  match readNode certDER with
  | none => .error "asn1: syntax error: sequence truncated"
  | some (t, content, _) =>
      if t = 0x30 then
        match readNode content with
        | some (t2, tbs, _) =>
            if t2 = 0x30 then parseTBS tbs
            else .error "asn1: structure error: tags do not match"
        | none => .error "asn1: syntax error: sequence truncated"
      else .error "asn1: structure error: tags do not match"

/-- Embedding of `NewSigner` restricted to what it does with the certificate
bytes: on parse failure it returns the asn1 error wrapped with the message
string, and it does not attach the declared sentinel
`ErrCertificateParse`. -/
def newSigner (certDER : List Nat) : Except CmsError Unit :=
  match parseCertificate certDER with
  | .error m => .error (.wrapped "failed to parse certificate" (.asn1Error m))
  | .ok _ => .ok ()

/-! ## Lemmas about the OID scan -/

theorem findCurveOIDWith_eq_empty (order : List (String × List Nat)) (header : List Nat)
    (h : ∀ p ∈ order, bytesContains header p.2 = false) :
    findCurveOIDWith order header = "" := by
  induction order with
  | nil => rfl
  | cons p rest ih =>
      have hp := h p (List.mem_cons_self p rest)
      simp only [findCurveOIDWith, hp, if_neg]
      exact ih fun q hq => h q (List.mem_cons_of_mem p hq)

theorem findCurveOIDWith_unique (order : List (String × List Nat)) (header : List Nat)
    (oid : String) (pat : List Nat) (hmem : (oid, pat) ∈ order)
    (hocc : bytesContains header pat = true)
    (huniq : ∀ p ∈ order, bytesContains header p.2 = true → p = (oid, pat)) :
    findCurveOIDWith order header = oid := by
  induction order with
  | nil => cases hmem
  | cons p rest ih =>
      by_cases hp : bytesContains header p.2 = true
      · have := huniq p (List.mem_cons_self p rest) hp
        simp only [findCurveOIDWith, hp, if_pos]
        rw [this]
      · have hne : p ≠ (oid, pat) := fun he => hp (he ▸ hocc)
        have hmem2 : (oid, pat) ∈ rest := by
          rcases List.mem_cons.mp hmem with h1 | h1
          · exact absurd h1.symm hne
          · exact h1
        have hp2 : bytesContains header p.2 = false := by simpa using hp
        simp only [findCurveOIDWith, hp2, Bool.false_eq_true, if_false]
        exact ih hmem2 fun q hq => huniq q (List.mem_cons_of_mem p hq)

theorem findCurveOIDWith_mem (order : List (String × List Nat)) (header : List Nat) :
    findCurveOIDWith order header = "" ∨
      ∃ p ∈ order, findCurveOIDWith order header = p.1 ∧ bytesContains header p.2 = true := by
  induction order with
  | nil => exact Or.inl rfl
  | cons p rest ih =>
      by_cases hp : bytesContains header p.2 = true
      · refine Or.inr ⟨p, List.mem_cons_self p rest, ?_, hp⟩
        simp [findCurveOIDWith, hp]
      · simp only [Bool.not_eq_true] at hp
        rcases ih with h1 | ⟨q, hq, hq1, hq2⟩
        · exact Or.inl (by simp [findCurveOIDWith, hp, h1])
        · exact Or.inr ⟨q, List.mem_cons_of_mem p hq, by simp [findCurveOIDWith, hp, hq1], hq2⟩

/-- Claim C1, counterexample: the claim says `OpenContainer` never fails with
the `CurveOIDUnknown` kind because the two tables coincide; but the
`oidPatterns` map recognises `1.2.643.7.1.2.1.1.2` (GOST 2012-256-B) while
the `CurveOID` map registers no descriptor for it, so a `header.key` whose
bytes are exactly that DER pattern makes `OpenContainer` fail with
`CurveOIDUnknown`. -/
theorem openContainer_curveOIDUnknown_reachable :
    openContainerOID oidPatternsTable
      [0x06, 0x08, 0x2a, 0x85, 0x03, 0x07, 0x01, 0x02, 0x01, 0x01, 0x02] =
      .error .curveOIDUnknown := rfl

/-- Claim C1, amended: the `CurveOIDUnknown` branch of `OpenContainer` is
reachable exactly through the one pattern without a registered descriptor:
whenever the curve-resolution stage fails with `CurveOIDUnknown` (under any
map-iteration order), the scanned OID is `1.2.643.7.1.2.1.1.2`; for the six
registered OIDs the branch is unreachable. -/
theorem openContainer_curveOIDUnknown_only_tc26B
    (order : List (String × List Nat)) (hperm : order.Perm oidPatternsTable)
    (header : List Nat)
    (herr : openContainerOID order header = .error .curveOIDUnknown) :
    findCurveOIDWith order header = "1.2.643.7.1.2.1.1.2" := by
  rcases findCurveOIDWith_mem order header with hempty | ⟨p, hp, heq, hocc⟩
  · rw [openContainerOID] at herr
    simp only [hempty, if_pos] at herr
    cases herr
  · have hmem : p ∈ oidPatternsTable := hperm.mem_iff.mp hp
    rw [openContainerOID] at herr
    simp only [heq] at herr ⊢
    by_cases he : p.1 = ""
    · rw [if_pos he] at herr; cases herr
    · rw [if_neg he] at herr
      by_cases hr : curveRegistered p.1 = true
      · simp only [hr, if_true] at herr; cases herr
      · fin_cases hmem <;> first
          | rfl
          | (exact absurd (by decide) hr)

/-- Claim C1, witness for the amended theorem at a concrete header and the
source-order iteration. -/
theorem openContainer_curveOIDUnknown_only_tc26B_witness :
    findCurveOIDWith oidPatternsTable
      [0x06, 0x08, 0x2a, 0x85, 0x03, 0x07, 0x01, 0x02, 0x01, 0x01, 0x02] =
      "1.2.643.7.1.2.1.1.2" :=
  openContainer_curveOIDUnknown_only_tc26B oidPatternsTable (List.Perm.refl _) _ rfl

/-- Claim C3, counterexample: `findCurveOID` ranges over a Go map, whose
iteration order is unspecified; on a header containing the patterns of two
distinct recognised curves, two valid iteration orders (the source listing
and the same listing with its first two entries swapped, a permutation of
the table) return different OIDs, so `findCurveOID` is not the claimed
deterministic first-occurrence-in-table-order function. -/
theorem findCurveOID_order_dependent :
    List.Perm
      (("1.2.643.2.2.35.2", [0x06, 0x07, 0x2a, 0x85, 0x03, 0x02, 0x02, 0x23, 0x02]) ::
        ("1.2.643.2.2.35.1", [0x06, 0x07, 0x2a, 0x85, 0x03, 0x02, 0x02, 0x23, 0x01]) ::
        oidPatternsTable.drop 2)
      oidPatternsTable ∧
    findCurveOIDWith oidPatternsTable
      [0x06, 0x07, 0x2a, 0x85, 0x03, 0x02, 0x02, 0x23, 0x01,
        0x06, 0x07, 0x2a, 0x85, 0x03, 0x02, 0x02, 0x23, 0x02] = "1.2.643.2.2.35.1" ∧
    findCurveOIDWith
      (("1.2.643.2.2.35.2", [0x06, 0x07, 0x2a, 0x85, 0x03, 0x02, 0x02, 0x23, 0x02]) ::
        ("1.2.643.2.2.35.1", [0x06, 0x07, 0x2a, 0x85, 0x03, 0x02, 0x02, 0x23, 0x01]) ::
        oidPatternsTable.drop 2)
      [0x06, 0x07, 0x2a, 0x85, 0x03, 0x02, 0x02, 0x23, 0x01,
        0x06, 0x07, 0x2a, 0x85, 0x03, 0x02, 0x02, 0x23, 0x02] = "1.2.643.2.2.35.2" := by
  refine ⟨?_, by decide, by decide⟩
  exact List.Perm.swap _ _ _

/-- Claim C3, amended: for every iteration order of the `oidPatterns` map,
`findCurveOID` returns the empty string when no recognised pattern occurs in
the header, and returns the unique matching OID when exactly one table
entry's pattern occurs; when several distinct patterns occur the winner
depends on the unspecified iteration order. -/
theorem findCurveOID_deterministic_when_unique
    (order : List (String × List Nat)) (hperm : order.Perm oidPatternsTable)
    (header : List Nat) :
    ((∀ p ∈ oidPatternsTable, bytesContains header p.2 = false) →
        findCurveOIDWith order header = "") ∧
    (∀ oid pat, (oid, pat) ∈ oidPatternsTable → bytesContains header pat = true →
        (∀ p ∈ oidPatternsTable, bytesContains header p.2 = true → p = (oid, pat)) →
        findCurveOIDWith order header = oid) := by
  constructor
  · intro h
    exact findCurveOIDWith_eq_empty order header fun p hp => h p (hperm.mem_iff.mp hp)
  · intro oid pat hmem hocc huniq
    exact findCurveOIDWith_unique order header oid pat (hperm.mem_iff.mpr hmem) hocc
      fun p hp => huniq p (hperm.mem_iff.mp hp)

/-- Claim C3, witness for the amended theorem: the header of the source's
own test contains exactly the CryptoPro-A pattern, and the scan finds it
under the source-order iteration. -/
theorem findCurveOID_deterministic_when_unique_witness :
    findCurveOIDWith oidPatternsTable
      [0x30, 0x82, 0x06, 0x07, 0x2a, 0x85, 0x03, 0x02, 0x02, 0x23, 0x01, 0x00] =
      "1.2.643.2.2.35.1" :=
  (findCurveOID_deterministic_when_unique oidPatternsTable (List.Perm.refl _) _).2
    "1.2.643.2.2.35.1" [0x06, 0x07, 0x2a, 0x85, 0x03, 0x02, 0x02, 0x23, 0x01]
    (by decide) (by decide) (by decide)

/-- Claim C2, counterexample: for a container whose `header.key` carries no
`0x8A 0x08` fingerprint tag, `ExtractKey` silently returns a key bundle for
any derived key at all: two runs that differ only in the derived public
point (standing for a right and a wrong password) both succeed, so a wrong
password is not reported as `FingerprintMismatch` on such containers. -/
theorem extractKey_accepts_without_fingerprint :
    findFingerprint [0x06, 0x07, 0x2a, 0x85, 0x03, 0x02, 0x02, 0x23, 0x01] 0x8a = none ∧
    extractKey
      ⟨fun _ => List.replicate 32 0, fun _ b => b, fun _ => some (List.replicate 64 1), 5⟩
      "1.2.643.2.2.35.1" [0x06, 0x07, 0x2a, 0x85, 0x03, 0x02, 0x02, 0x23, 0x01]
      [1] [] [] [] =
      some (.ok ⟨List.replicate 32 0, List.replicate 64 1, "1.2.643.2.2.35.1",
        List.replicate 8 1⟩) ∧
    extractKey
      ⟨fun _ => List.replicate 32 0, fun _ b => b, fun _ => some (List.replicate 64 2), 5⟩
      "1.2.643.2.2.35.1" [0x06, 0x07, 0x2a, 0x85, 0x03, 0x02, 0x02, 0x23, 0x01]
      [1] [] [] [] =
      some (.ok ⟨List.replicate 32 0, List.replicate 64 2, "1.2.643.2.2.35.1",
        List.replicate 8 2⟩) ∧
    (List.replicate 64 1 : List Nat) ≠ List.replicate 64 2 :=
  ⟨rfl, rfl, rfl, by decide⟩

/-- Claim C2, amended: when the first `0x8A 0x08` occurrence in `header.key`
carries a stored fingerprint and the first 8 bytes of the derived public
point differ from it, `ExtractKey` fails with `FingerprintMismatch` and
returns no bundle; when no fingerprint is found the comparison is skipped
and the bundle is returned. -/
theorem extractKey_fingerprint_gate
    (P : ExtParams) (oid : String) (header mask salt value password : List Nat)
    (decrypted priv pub : List Nat)
    (hdec : gost28147ECBDecrypt P.blockDecrypt (cpkdf P.hash password salt) value =
      some decrypted)
    (hunmask : unmaskKey decrypted.reverse mask P.curveQ = some priv)
    (hpub : P.pubFromPriv priv = some pub) :
    (∀ fp, findFingerprint header 0x8a = some fp → pub.take 8 ≠ fp →
        extractKey P oid header mask salt value password =
          some (.error .fingerprintMismatch)) ∧
    (findFingerprint header 0x8a = none →
        extractKey P oid header mask salt value password =
          some (.ok ⟨priv, pub, oid, pub.take 8⟩)) := by
  constructor
  · intro fp hfp hne
    simp only [extractKey, gost28147ECBDecrypt] at hdec ⊢
    simp only [hdec, hunmask, hpub, hfp, if_neg hne]
  · intro hfp
    simp only [extractKey, gost28147ECBDecrypt] at hdec ⊢
    simp only [hdec, hunmask, hpub, hfp]

/-- Claim C2, witness for the amended theorem: a header storing the
fingerprint `09 09 09 09 09 09 09 09` rejects a derived public point of all
ones. -/
theorem extractKey_fingerprint_gate_witness :
    extractKey
      ⟨fun _ => List.replicate 32 0, fun _ b => b, fun _ => some (List.replicate 64 1), 5⟩
      "1.2.643.2.2.35.1" [0x8a, 0x08, 9, 9, 9, 9, 9, 9, 9, 9] [1] [] [] [] =
      some (.error .fingerprintMismatch) :=
  (extractKey_fingerprint_gate
      ⟨fun _ => List.replicate 32 0, fun _ b => b, fun _ => some (List.replicate 64 1), 5⟩
      "1.2.643.2.2.35.1" [0x8a, 0x08, 9, 9, 9, 9, 9, 9, 9, 9] [1] [] [] []
      [] (List.replicate 32 0) (List.replicate 64 1) rfl rfl rfl).1
    [9, 9, 9, 9, 9, 9, 9, 9] rfl (by decide)

/-- Claim C10: when the first occurrence of `0x8A 0x08` has fewer than 8
bytes after it, `findFingerprint` returns nothing (the bounds check fails
before any slice is taken) and `ExtractKey` behaves exactly as if no
fingerprint were present: the comparison is skipped and the bundle is
returned. -/
theorem findFingerprint_short_tail
    (header : List Nat) (idx : Nat)
    (hidx : bytesIndex header [0x8a, 0x08] = some idx)
    (hshort : header.length < idx + 10) :
    findFingerprint header 0x8a = none ∧
    ∀ (P : ExtParams) (oid : String) (mask salt value password decrypted priv pub : List Nat),
      gost28147ECBDecrypt P.blockDecrypt (cpkdf P.hash password salt) value =
        some decrypted →
      unmaskKey decrypted.reverse mask P.curveQ = some priv →
      P.pubFromPriv priv = some pub →
      extractKey P oid header mask salt value password =
        some (.ok ⟨priv, pub, oid, pub.take 8⟩) := by
  have h1 : findFingerprint header 0x8a = none := by
    simp only [findFingerprint, hidx]
    rw [if_neg (by omega)]
  refine ⟨h1, ?_⟩
  intro P oid mask salt value password decrypted priv pub hdec hunmask hpub
  simp only [extractKey, gost28147ECBDecrypt] at hdec ⊢
  simp only [hdec, hunmask, hpub, h1]

/-- Claim C10, witness: a three-byte header whose tag sits at its start. -/
theorem findFingerprint_short_tail_witness :
    findFingerprint [0x8a, 0x08, 1] 0x8a = none ∧
    extractKey
      ⟨fun _ => List.replicate 32 0, fun _ b => b, fun _ => some (List.replicate 64 1), 5⟩
      "1.2.643.2.2.35.1" [0x8a, 0x08, 1] [1] [] [] [] =
      some (.ok ⟨List.replicate 32 0, List.replicate 64 1, "1.2.643.2.2.35.1",
        List.replicate 8 1⟩) :=
  have h := findFingerprint_short_tail [0x8a, 0x08, 1] 0 rfl (by decide)
  ⟨h.1, h.2 _ _ _ _ _ _ [] (List.replicate 32 0) (List.replicate 64 1) rfl rfl rfl⟩

/-! ## Lemmas about ECB block processing -/

theorem ecbDecrypt_length_of_dvd (dec : List Nat → List Nat)
    (hdec : ∀ b, b.length = 8 → (dec b).length = 8) :
    ∀ (n : Nat) (data : List Nat), data.length ≤ n → 8 ∣ data.length →
      ∃ out, ecbDecrypt dec data = some out ∧ out.length = data.length := by
  intro n
  induction n with
  | zero =>
      intro data hle _
      have hnil : data = [] := List.eq_nil_of_length_eq_zero (Nat.le_zero.mp hle)
      subst hnil
      exact ⟨[], rfl, rfl⟩
  | succ n ih =>
      intro data hle hdvd
      rcases data with _ |
        ⟨b0, _ | ⟨b1, _ | ⟨b2, _ | ⟨b3, _ | ⟨b4, _ | ⟨b5, _ | ⟨b6, _ | ⟨b7, rest⟩⟩⟩⟩⟩⟩⟩⟩
      · exact ⟨[], rfl, rfl⟩
      · exfalso; simp only [List.length] at hdvd; omega
      · exfalso; simp only [List.length] at hdvd; omega
      · exfalso; simp only [List.length] at hdvd; omega
      · exfalso; simp only [List.length] at hdvd; omega
      · exfalso; simp only [List.length] at hdvd; omega
      · exfalso; simp only [List.length] at hdvd; omega
      · exfalso; simp only [List.length] at hdvd; omega
      · simp only [List.length] at hle hdvd
        obtain ⟨out, h1, h2⟩ := ih rest (by omega) (by omega)
        refine ⟨dec [b0, b1, b2, b3, b4, b5, b6, b7] ++ out, ?_, ?_⟩
        · simp only [ecbDecrypt, h1, Option.map_some']
        · simp only [List.length_append, h2,
            hdec [b0, b1, b2, b3, b4, b5, b6, b7] (by simp), List.length]
          omega

theorem ecbDecrypt_none_of_not_dvd (dec : List Nat → List Nat) :
    ∀ (n : Nat) (data : List Nat), data.length ≤ n → ¬ (8 ∣ data.length) →
      ecbDecrypt dec data = none := by
  intro n
  induction n with
  | zero =>
      intro data hle hdvd
      have hnil : data = [] := List.eq_nil_of_length_eq_zero (Nat.le_zero.mp hle)
      subst hnil
      exact absurd ⟨0, rfl⟩ hdvd
  | succ n ih =>
      intro data hle hdvd
      rcases data with _ |
        ⟨b0, _ | ⟨b1, _ | ⟨b2, _ | ⟨b3, _ | ⟨b4, _ | ⟨b5, _ | ⟨b6, _ | ⟨b7, rest⟩⟩⟩⟩⟩⟩⟩⟩
      · exact absurd ⟨0, rfl⟩ hdvd
      · rfl
      · rfl
      · rfl
      · rfl
      · rfl
      · rfl
      · rfl
      · simp only [List.length] at hle hdvd
        have h := ih rest (by omega) (by omega)
        simp only [ecbDecrypt, h, Option.map_none']

/-- Claim C9: on a 32-byte key and a ciphertext whose length is a multiple
of the 8-byte block size, the ECB decryption step succeeds and produces
output of exactly the input length; and `ExtractKey` guards the call with no
length check: on a value of any other length the decryption loop itself
aborts (the gogost slice panic, modelled as `none`) rather than any typed
error being returned first. -/
theorem gost28147ECB_total_and_unchecked
    (blockDec : List Nat → List Nat → List Nat) (key data : List Nat)
    (P : ExtParams) (oid : String) (header mask salt password : List Nat)
    (_hkey : key.length = 32)
    (hblock : ∀ b, b.length = 8 → (blockDec key b).length = 8) :
    (8 ∣ data.length →
      ∃ out, gost28147ECBDecrypt blockDec key data = some out ∧
        out.length = data.length) ∧
    (¬ 8 ∣ data.length →
      extractKey P oid header mask salt data password = none) := by
  constructor
  · intro hdvd
    exact ecbDecrypt_length_of_dvd (blockDec key) hblock data.length data le_rfl hdvd
  · intro hndvd
    have h := ecbDecrypt_none_of_not_dvd (P.blockDecrypt (cpkdf P.hash password salt))
      data.length data le_rfl hndvd
    simp only [extractKey, gost28147ECBDecrypt, h]

/-- Claim C9, witness: the identity block function on a 16-byte value. -/
theorem gost28147ECB_total_and_unchecked_witness :
    ∃ out, gost28147ECBDecrypt (fun _ b => b) (List.replicate 32 0)
        (List.replicate 16 5) = some out ∧
      out.length = (List.replicate 16 5 : List Nat).length :=
  (gost28147ECB_total_and_unchecked (fun _ b => b) (List.replicate 32 0)
      (List.replicate 16 5)
      ⟨fun _ => List.replicate 32 0, fun _ b => b, fun _ => none, 0⟩
      "" [] [] [] [] (by simp) (fun b h => h)).1 (by decide)

/-! ## Lemmas about `cpkdf` -/

theorem expandPassword_length (p : List Nat) :
    (expandPassword p).length = 4 * p.length := by
  unfold expandPassword
  by_cases h : p.length > 0
  · simp [h, Nat.mul_comm]
  · simp only [not_lt, Nat.le_zero] at h
    simp [h]

theorem cpkdfIter_eq_iterate (hash : List Nat → List Nat) (hr : List Nat) (n : Nat)
    (c : List Nat) : cpkdfIter hash hr n c = (cpkdfRound hash hr)^[n] c := by
  induction n generalizing c with
  | zero => rfl
  | succ n ih =>
      rw [cpkdfIter, ih, Function.iterate_succ_apply]

/-- Claim C4: `cpkdf` always returns exactly 32 bytes; the expanded password
buffer has length `4n` with password byte `i` at offset `4i` and zeros at
every other offset (and is empty for an empty password); and the whole
function equals the staged pipeline that runs the iteration stage exactly
2000 times for a non-empty password and exactly 2 times for an empty one.
Determinism holds because the embedding is a pure function of `hash`,
`password` and `salt`. -/
theorem cpkdf_spec_conformance
    (hash : List Nat → List Nat) (password salt : List Nat)
    (hhash : ∀ x, (hash x).length = 32) :
    (cpkdf hash password salt).length = 32 ∧
    (expandPassword password).length = 4 * password.length ∧
    (∀ i, i < password.length →
      (expandPassword password).getD (4 * i) 0 = password.getD i 0) ∧
    (∀ j, j < 4 * password.length → j % 4 ≠ 0 →
      (expandPassword password).getD j 0 = 0) ∧
    expandPassword [] = [] ∧
    cpkdf hash password salt =
      hash ((padTo64 (hash
        ((xorPad 0x36 ((cpkdfRound hash (hash (salt ++ expandPassword password)))^[
            if password.length > 0 then 2000 else 2] (padTo64 magicC))).take 32 ++
          salt ++
          (xorPad 0x5C ((cpkdfRound hash (hash (salt ++ expandPassword password)))^[
            if password.length > 0 then 2000 else 2] (padTo64 magicC))).take 32 ++
          expandPassword password))).take 32) := by
  refine ⟨?_, expandPassword_length password, ?_, ?_, rfl, ?_⟩
  · simp only [cpkdf]
    exact hhash _
  · intro i hi
    have hp : password.length > 0 := lt_of_le_of_lt (Nat.zero_le i) hi
    unfold expandPassword
    rw [if_pos hp]
    have hlt : 4 * i < ((List.range (password.length * 4)).map fun j =>
        if j % 4 = 0 then password.getD (j / 4) 0 else 0).length := by
      simp; omega
    rw [List.getD_eq_getElem _ _ hlt]
    simp only [List.getElem_map, List.getElem_range, Nat.mul_mod_right, if_pos rfl]
    rw [Nat.mul_div_cancel_left i (by norm_num)]
    simp
  · intro j hj hmod
    have hp : password.length > 0 := by omega
    unfold expandPassword
    rw [if_pos hp]
    have hlt : j < ((List.range (password.length * 4)).map fun k =>
        if k % 4 = 0 then password.getD (k / 4) 0 else 0).length := by
      simp; omega
    rw [List.getD_eq_getElem _ _ hlt]
    simp only [List.getElem_map, List.getElem_range, if_neg hmod]
  · rcases Nat.eq_zero_or_pos password.length with hz | hp
    · have hnil : password = [] := List.eq_nil_of_length_eq_zero hz
      subst hnil
      simp [cpkdf, cpkdfIter_eq_iterate, expandPassword]
    · have hpin : (expandPassword password).length > 0 := by
        rw [expandPassword_length]; omega
      simp only [cpkdf, cpkdfIter_eq_iterate, if_pos hp, if_pos hpin]

/-- Claim C4, witness at a constant 32-byte hash, a one-byte password and a
one-byte salt. -/
theorem cpkdf_spec_conformance_witness :
    (cpkdf (fun _ => List.replicate 32 0) [0x41] [0xaa]).length = 32 :=
  (cpkdf_spec_conformance (fun _ => List.replicate 32 0) [0x41] [0xaa]
    (fun _ => by simp)).1

/-! ## Lemmas about the DER encoder and reader -/

theorem natOfBytesBE_append_singleton (xs : List Nat) (b : Nat) :
    natOfBytesBE (xs ++ [b]) = natOfBytesBE xs * 256 + b := by
  simp [natOfBytesBE, List.foldl_append]

theorem natOfBytesBE_natToBytesBEAux :
    ∀ (fuel n : Nat), n ≤ fuel → natOfBytesBE (natToBytesBEAux fuel n) = n := by
  intro fuel
  induction fuel with
  | zero =>
      intro n h
      have : n = 0 := Nat.le_zero.mp h
      subst this
      rfl
  | succ fuel ih =>
      intro n h
      by_cases hz : n = 0
      · subst hz; rfl
      · rw [natToBytesBEAux, if_neg hz, natOfBytesBE_append_singleton,
          ih (n / 256) (by omega)]
        omega

theorem natOfBytesBE_natToBytesBE (n : Nat) : natOfBytesBE (natToBytesBE n) = n :=
  natOfBytesBE_natToBytesBEAux n n le_rfl

theorem natToBytesBE_ne_nil (n : Nat) (h : n ≠ 0) : natToBytesBE n ≠ [] := by
  cases n with
  | zero => exact absurd rfl h
  | succ m =>
      rw [natToBytesBE, natToBytesBEAux, if_neg h]
      simp

theorem readLen_derLenBytes (n : Nat) (rest : List Nat) :
    readLen (derLenBytes n ++ rest) = some (n, rest) := by
  by_cases h : n < 128
  · rw [derLenBytes, if_pos h]
    simp [readLen, h]
  · rw [derLenBytes, if_neg h]
    have hk0 : (natToBytesBE n).length ≠ 0 := by
      simpa [List.length_eq_zero] using natToBytesBE_ne_nil n (by omega)
    simp only [readLen, List.cons_append]
    rw [if_neg (by omega)]
    simp only [Nat.add_sub_cancel_left]
    rw [if_neg hk0, if_pos (by simp)]
    rw [List.take_left, List.drop_left, natOfBytesBE_natToBytesBE]

theorem readLen_suffix_length (l : List Nat) (n : Nat) (r : List Nat)
    (h : readLen l = some (n, r)) : r.length ≤ l.length := by
  cases l with
  | nil => cases h
  | cons b rest =>
      simp only [readLen] at h
      by_cases hb : b < 128
      · rw [if_pos hb] at h
        obtain ⟨rfl, rfl⟩ : b = n ∧ rest = r := by
          cases h; exact ⟨rfl, rfl⟩
        simp
      · rw [if_neg hb] at h
        by_cases hk : b - 128 = 0
        · rw [if_pos hk] at h; cases h
        · rw [if_neg hk] at h
          by_cases hle : b - 128 ≤ rest.length
          · rw [if_pos hle] at h
            have h2 := Option.some.inj h
            have hr2 : rest.drop (b - 128) = r := congrArg Prod.snd h2
            rw [← hr2]
            simp only [List.length_drop, List.length_cons]
            omega
          · rw [if_neg hle] at h; cases h

theorem derParseElemsF_cons (f : Nat) (t : Nat) (c rest : List Nat) :
    derParseElemsF (f + 1) (derNode t c ++ rest) =
      (derParseElemsF f rest).map ((t, c) :: ·) := by
  have hshape : derNode t c ++ rest = t :: (derLenBytes c.length ++ (c ++ rest)) := by
    simp [derNode]
  rw [hshape]
  simp only [derParseElemsF, readLen_derLenBytes]
  rw [if_pos (by simp)]
  rw [List.take_left, List.drop_left]

theorem derParseElemsF_fuel_irrel (n : Nat) :
    ∀ (f g : Nat) (bs : List Nat), bs.length ≤ n → bs.length ≤ f → bs.length ≤ g →
      derParseElemsF f bs = derParseElemsF g bs := by
  induction n with
  | zero =>
      intro f g bs hn _ _
      have : bs = [] := List.eq_nil_of_length_eq_zero (Nat.le_zero.mp hn)
      subst this
      simp [derParseElemsF]
  | succ n ih =>
      intro f g bs hn hf hg
      cases bs with
      | nil => simp [derParseElemsF]
      | cons t rest =>
          obtain ⟨f2, rfl⟩ : ∃ f2, f = f2 + 1 :=
            ⟨f - 1, by simp only [List.length_cons] at hf; omega⟩
          obtain ⟨g2, rfl⟩ : ∃ g2, g = g2 + 1 :=
            ⟨g - 1, by simp only [List.length_cons] at hg; omega⟩
          simp only [derParseElemsF]
          cases hr : readLen rest with
          | none => rfl
          | some pr =>
              obtain ⟨len, r2⟩ := pr
              have hsuf := readLen_suffix_length rest len r2 hr
              simp only [List.length_cons] at hn hf hg
              dsimp only
              by_cases hlen : len ≤ r2.length
              · have hdl : (r2.drop len).length ≤ r2.length := by
                  simp [List.length_drop]
                simp only [if_pos hlen]
                rw [ih f2 g2 (r2.drop len) (by omega) (by omega) (by omega)]
              · simp only [if_neg hlen]

theorem derParse_nil : derParse [] = some [] := rfl

theorem derParse_cons (t : Nat) (c rest : List Nat) :
    derParse (derNode t c ++ rest) = (derParse rest).map ((t, c) :: ·) := by
  have h2 : 2 ≤ (derNode t c).length := by
    simp only [derNode, List.length_cons, List.length_append, derLenBytes]
    split <;> (first | omega | simp)
  obtain ⟨T, hT⟩ : ∃ T, (derNode t c ++ rest).length = T + 1 :=
    ⟨(derNode t c ++ rest).length - 1, by simp only [List.length_append]; omega⟩
  have hTge : rest.length ≤ T := by
    simp only [List.length_append] at hT
    omega
  rw [derParse, hT, derParseElemsF_cons]
  rw [derParse, derParseElemsF_fuel_irrel rest.length T rest.length rest le_rfl hTge le_rfl]

theorem derParse_single (t : Nat) (c : List Nat) : derParse (derNode t c) = some [(t, c)] := by
  have h := derParse_cons t c []
  rw [List.append_nil] at h
  rw [h, derParse_nil]
  rfl

theorem derLenBytes_short (n : Nat) (h : n < 128) : derLenBytes n = [n] := if_pos h

theorem derNode_short (tag : Nat) (c : List Nat) (h : c.length < 128) :
    derNode tag c = tag :: c.length :: c := by
  rw [derNode, derLenBytes_short _ h]
  rfl

theorem derNode_length (tag : Nat) (c : List Nat) (h : c.length < 128) :
    (derNode tag c).length = 2 + c.length := by
  rw [derNode_short _ _ h]
  simp only [List.length_cons]
  omega

theorem rawValueNode_length (cls tag : Nat) (cpd : Bool) (b : List Nat)
    (h : b.length < 128) : (rawValueNode cls tag cpd b).length = 2 + b.length := by
  rw [rawValueNode, derLenBytes_short _ h]
  simp only [List.length_cons, List.cons_append, List.nil_append, List.length_append]
  omega

theorem rawValueNode_set (v : List Nat) : rawValueNode 0 17 true v = derNode 0x31 v := rfl

theorem rawValueNode_ctx0 (v : List Nat) : rawValueNode 2 0 true v = derNode 0xA0 v := rfl

theorem setFirstByte_derNode (b tag : Nat) (c : List Nat) :
    setFirstByte b (derNode tag c) = derNode b c := rfl

theorem signingTimeAttr_length (t : List Nat) (h : t.length ≤ 17) :
    (signingTimeAttr t).length = 15 + t.length := by
  have h1 : t.length < 128 := by omega
  have hv : (rawValueNode 0 17 true t).length = 2 + t.length :=
    rawValueNode_length _ _ _ _ h1
  have hoid : (encodeOID oidAttrSigningTime).length = 11 := rfl
  have hc : (encodeOID oidAttrSigningTime ++ rawValueNode 0 17 true t).length =
      13 + t.length := by
    rw [List.length_append, hv, hoid]
    omega
  rw [signingTimeAttr, derNode_length _ _ (by rw [hc]; omega), hc]
  omega

theorem messageDigestAttr_length (d : List Nat) (h : d.length = 32) :
    (messageDigestAttr d).length = 49 := by
  have hd : (derNode 0x04 d).length = 34 := by
    rw [derNode_length _ _ (by omega)]
    omega
  have hv : (rawValueNode 0 17 true (derNode 0x04 d)).length = 36 := by
    rw [rawValueNode_length _ _ _ _ (by omega), hd]
  have hoid : (encodeOID oidAttrMessageDigest).length = 11 := rfl
  have hc : (encodeOID oidAttrMessageDigest ++ rawValueNode 0 17 true (derNode 0x04 d)).length =
      47 := by
    rw [List.length_append, hv, hoid]
  rw [messageDigestAttr, derNode_length _ _ (by rw [hc]; omega), hc]

/-- Claim C5: for the shapes `Sign` actually passes (a 32-byte digest and a
marshalled time of at most 17 bytes), the attribute SEQUENCE always has a
two-byte header (tag plus one short-form length octet); `attrs_for_signing`
is byte-for-byte the SEQUENCE encoding with only byte 0 rewritten from
`0x30` to `0x31` (the length octet unchanged); and the `[0] IMPLICIT`
embedded raw value carries exactly the inner attribute encodings, i.e. the
SEQUENCE minus its outer identifier-and-length header. -/
theorem createSignedAttributes_tag_rewrite (timeDer digest : List Nat)
    (htime : timeDer.length ≤ 17) (hdigest : digest.length = 32) :
    attrsSeqBytes timeDer digest =
      0x30 :: (contentTypeAttr ++ signingTimeAttr timeDer ++
          messageDigestAttr digest).length ::
        (contentTypeAttr ++ signingTimeAttr timeDer ++ messageDigestAttr digest) ∧
    (createSignedAttributes timeDer digest).2 =
      0x31 :: (attrsSeqBytes timeDer digest).tail ∧
    (createSignedAttributes timeDer digest).1 =
      contentTypeAttr ++ signingTimeAttr timeDer ++ messageDigestAttr digest := by
  have hct : contentTypeAttr.length = 26 := rfl
  have hinner : (contentTypeAttr ++ signingTimeAttr timeDer ++
      messageDigestAttr digest).length < 128 := by
    simp only [List.length_append, hct, signingTimeAttr_length timeDer htime,
      messageDigestAttr_length digest hdigest]
    omega
  have h1 : attrsSeqBytes timeDer digest =
      0x30 :: (contentTypeAttr ++ signingTimeAttr timeDer ++
          messageDigestAttr digest).length ::
        (contentTypeAttr ++ signingTimeAttr timeDer ++ messageDigestAttr digest) :=
    derNode_short _ _ hinner
  refine ⟨h1, ?_, ?_⟩
  · simp only [createSignedAttributes, h1, setFirstByte, List.tail_cons]
  · simp only [createSignedAttributes, h1, List.drop_succ_cons, List.drop_zero]

/-- Claim C5, witness at a 15-byte UTCTime node and an all-zero 32-byte
digest. -/
theorem createSignedAttributes_tag_rewrite_witness :
    (createSignedAttributes (derNode 0x17 (List.replicate 13 0x30))
        (List.replicate 32 0)).1 =
      contentTypeAttr ++ signingTimeAttr (derNode 0x17 (List.replicate 13 0x30)) ++
        messageDigestAttr (List.replicate 32 0) :=
  (createSignedAttributes_tag_rewrite (derNode 0x17 (List.replicate 13 0x30))
    (List.replicate 32 0) (by decide) (by decide)).2.2

/-- Claim C6: the signed-attributes set contains exactly three attributes,
emitted in the fixed order contentType (1.2.840.113549.1.9.3), signingTime
(1.2.840.113549.1.9.5), messageDigest (1.2.840.113549.1.9.4); each
attribute's values field is a SET holding exactly one DER element; and the
outer SET is the plain in-order concatenation of the three encodings, with
no DER set-ordering transform applied. -/
theorem signedAttributes_structure (timeTag : Nat) (timeContent digest : List Nat) :
    (createSignedAttributes (derNode timeTag timeContent) digest).2 =
      derNode 0x31 (contentTypeAttr ++ signingTimeAttr (derNode timeTag timeContent) ++
        messageDigestAttr digest) ∧
    derParse (contentTypeAttr ++ signingTimeAttr (derNode timeTag timeContent) ++
        messageDigestAttr digest) =
      some [(0x30, encodeOID oidAttrContentType ++ rawValueNode 0 17 true (encodeOID oidData)),
        (0x30, encodeOID oidAttrSigningTime ++
          rawValueNode 0 17 true (derNode timeTag timeContent)),
        (0x30, encodeOID oidAttrMessageDigest ++
          rawValueNode 0 17 true (derNode 0x04 digest))] ∧
    derParse (encodeOID oidAttrContentType ++ rawValueNode 0 17 true (encodeOID oidData)) =
      some [(0x06, encodeOIDContent oidAttrContentType), (0x31, encodeOID oidData)] ∧
    derParse (encodeOID oidAttrSigningTime ++
        rawValueNode 0 17 true (derNode timeTag timeContent)) =
      some [(0x06, encodeOIDContent oidAttrSigningTime),
        (0x31, derNode timeTag timeContent)] ∧
    derParse (encodeOID oidAttrMessageDigest ++
        rawValueNode 0 17 true (derNode 0x04 digest)) =
      some [(0x06, encodeOIDContent oidAttrMessageDigest), (0x31, derNode 0x04 digest)] ∧
    derParse (encodeOID oidData) = some [(0x06, encodeOIDContent oidData)] ∧
    derParse (derNode timeTag timeContent) = some [(timeTag, timeContent)] ∧
    derParse (derNode 0x04 digest) = some [(0x04, digest)] ∧
    encodeOIDContent oidAttrContentType =
      [0x2a, 0x86, 0x48, 0x86, 0xf7, 0x0d, 0x01, 0x09, 0x03] ∧
    encodeOIDContent oidAttrSigningTime =
      [0x2a, 0x86, 0x48, 0x86, 0xf7, 0x0d, 0x01, 0x09, 0x05] ∧
    encodeOIDContent oidAttrMessageDigest =
      [0x2a, 0x86, 0x48, 0x86, 0xf7, 0x0d, 0x01, 0x09, 0x04] := by
  refine ⟨rfl, ?_, ?_, ?_, ?_, ?_, ?_, ?_, by decide, by decide, by decide⟩
  · simp only [contentTypeAttr, signingTimeAttr, messageDigestAttr, List.append_assoc,
      derParse_cons, derParse_single, Option.map_some']
  · simp only [encodeOID, rawValueNode_set, derParse_cons, derParse_single,
      Option.map_some']
  · simp only [encodeOID, rawValueNode_set, derParse_cons, derParse_single,
      Option.map_some']
  · simp only [encodeOID, rawValueNode_set, derParse_cons, derParse_single,
      Option.map_some']
  · simp only [encodeOID, derParse_single]
  · exact derParse_single _ _
  · exact derParse_single _ _

/-- Claim C7: every byte string produced by `Sign` begins with `0x30` and
parses as a single `ContentInfo` node whose content is the id-signedData OID
followed by the `[0] EXPLICIT` wrapper around one `SignedData` node; the
`SignedData` content is INTEGER version 1, a digest-algorithm SET holding
exactly one algorithm identifier, the detached `EncapsulatedContentInfo`
whose content is exactly the id-data OID with no eContent, the
`[0] IMPLICIT` certificates element carrying the original certificate DER
verbatim, and a SET holding exactly one `SignerInfo` node. -/
theorem signOutput_structure
    (certDER issuerNode serialContent timeDer digest sig : List Nat) :
    (signModel certDER issuerNode serialContent timeDer digest sig).head? = some 0x30 ∧
    derParse (signModel certDER issuerNode serialContent timeDer digest sig) =
      some [(0x30, encodeOID oidSignedData ++ rawValueNode 2 0 true
        (signedDataNode certDER (signerInfoNode issuerNode serialContent
          (createSignedAttributes timeDer digest).1 sig)))] ∧
    derParse (encodeOID oidSignedData ++ rawValueNode 2 0 true
        (signedDataNode certDER (signerInfoNode issuerNode serialContent
          (createSignedAttributes timeDer digest).1 sig))) =
      some [(0x06, encodeOIDContent oidSignedData),
        (0xA0, signedDataNode certDER (signerInfoNode issuerNode serialContent
          (createSignedAttributes timeDer digest).1 sig))] ∧
    encodeOIDContent oidSignedData =
      [0x2a, 0x86, 0x48, 0x86, 0xf7, 0x0d, 0x01, 0x07, 0x02] ∧
    derParse (signedDataNode certDER (signerInfoNode issuerNode serialContent
        (createSignedAttributes timeDer digest).1 sig)) =
      some [(0x30, signedDataContent certDER (signerInfoNode issuerNode serialContent
        (createSignedAttributes timeDer digest).1 sig))] ∧
    derParse (signedDataContent certDER (signerInfoNode issuerNode serialContent
        (createSignedAttributes timeDer digest).1 sig)) =
      some [(0x02, [1]),
        (0x31, algIdNode oidGostR341112256),
        (0x30, encodeOID oidData),
        (0xA0, certDER),
        (0x31, signerInfoNode issuerNode serialContent
          (createSignedAttributes timeDer digest).1 sig)] ∧
    derParse (algIdNode oidGostR341112256) =
      some [(0x30, encodeOID oidGostR341112256 ++ [0x05, 0x00])] ∧
    derParse (encodeOID oidData) = some [(0x06, encodeOIDContent oidData)] ∧
    derParse (signerInfoNode issuerNode serialContent
        (createSignedAttributes timeDer digest).1 sig) =
      some [(0x30, signerInfoContent issuerNode serialContent
        (createSignedAttributes timeDer digest).1 sig)] := by
  refine ⟨rfl, ?_, ?_, by decide, ?_, ?_, ?_, ?_, ?_⟩
  · simp only [signModel]
    exact derParse_single _ _
  · simp only [encodeOID, rawValueNode_ctx0, derParse_cons, derParse_single,
      Option.map_some']
  · exact derParse_single _ _
  · simp only [signedDataContent, rawValueNode_set, rawValueNode_ctx0, algIdNode,
      encodeOID, List.append_assoc, derParse_cons, derParse_single, Option.map_some']
  · simp only [algIdNode]
    exact derParse_single _ _
  · simp only [encodeOID]
    exact derParse_single _ _
  · exact derParse_single _ _

/-- Claim C8: `NewSigner` does fail on an empty certificate DER (and on any
unparsable DER), but the error it returns is the asn1 failure wrapped with
the message string only; the declared sentinel `ErrCertificateParse` is
never attached to the chain, so matching by sentinel identity (`errors.Is`)
yields false.  The theorem evaluates the embedded `NewSigner` at the failing
inputs and shows the resulting chain does not carry the sentinel. -/
theorem newSigner_error_kind :
    newSigner [] =
      .error (.wrapped "failed to parse certificate"
        (.asn1Error "asn1: syntax error: sequence truncated")) ∧
    newSigner [0x01] =
      .error (.wrapped "failed to parse certificate"
        (.asn1Error "asn1: syntax error: sequence truncated")) ∧
    errorIs (.wrapped "failed to parse certificate"
        (.asn1Error "asn1: syntax error: sequence truncated"))
      .errCertificateParse = false :=
  ⟨rfl, rfl, by decide⟩

end EsiaPotato
